import Mathlib

/-!
# Shallow embedding of `pysdg2000x.py` (Siglent SDG2000X protocol client)

Bytes are modelled as `List Nat` (each entry an octet value), text as
`String`.  Python operations used by the source are translated directly:
`bytes.strip` / `str.strip`, `bytes.find`, slicing, `str.split(',')`,
`int(...)`, `dict` insertion order, and `struct.pack/unpack` of
little-endian signed 16-bit values.  Fallible operations return `Option`
(`none` stands for the Python exception raised at that point).
-/

namespace SDG2000X

/-- The byte values stripped by Python's `bytes.strip()` with no argument:
`\t \n \v \f \r` and space. -/
def wsBytes : List Nat := [9, 10, 11, 12, 13, 32]

/-- Whether a byte is ASCII whitespace in Python's `strip` sense. -/
def isWSByte (b : Nat) : Bool := wsBytes.contains b

/-- Remove leading ASCII-whitespace bytes (left half of `bytes.strip()`). -/
def stripLeftB (l : List Nat) : List Nat := l.dropWhile isWSByte

/-- Python `bytes.strip()`: drop ASCII whitespace from both ends. -/
def bytesStrip (l : List Nat) : List Nat :=
  ((stripLeftB l).reverse.dropWhile isWSByte).reverse

/-- The octets of an ASCII string literal. -/
def strBytes (s : String) : List Nat := s.data.map Char.toNat

/-- `SDG2000X._sendRecv` with `decode=None`: the received buffer is returned
after `resp.strip()` (line 82 of the source), for binary replies as well. -/
def sendRecvBytes (resp : List Nat) : List Nat := bytesStrip resp

/-- Scan of `firstSubIdx` starting at index `i`: the first position `≥ i`
at which `pat` occurs in the remaining list. -/
def firstSubIdxFrom (pat : List Nat) : Nat → List Nat → Option Nat
  | i, [] => if pat.isPrefixOf ([] : List Nat) then some i else none
  | i, b :: t =>
    if pat.isPrefixOf (b :: t) then some i else firstSubIdxFrom pat (i + 1) t

/-- Position of the first occurrence of `pat` in `hay`
(Python `bytes.find` when it succeeds). -/
def firstSubIdx (hay pat : List Nat) : Option Nat := firstSubIdxFrom pat 0 hay

/-- Python `hay.find(pat)`: first index, or `-1` when absent. -/
def pyFind (hay pat : List Nat) : Int :=
  match firstSubIdx hay pat with
  | some p => (p : Int)
  | none => -1

/-- Split a list on a separator element; mirrors Python
`bytes.split(sep)` / `str.split(',')` (always at least one field). -/
def splitSep {α : Type} [DecidableEq α] (c : α) : List α → List (List α)
  | [] => [[]]
  | b :: t =>
    match splitSep c t with
    | [] => [[]]
    | h :: r => if b = c then [] :: h :: r else (b :: h) :: r

/-- Whether a character is whitespace for Python `str.strip()`
(the ASCII portion, which is all the protocol produces). -/
def isWSChar (c : Char) : Bool := isWSByte c.toNat

/-- Python `str.strip()`: drop whitespace characters from both ends. -/
def pyStrip (s : String) : String :=
  String.mk (((s.data.dropWhile isWSChar).reverse.dropWhile isWSChar).reverse)

/-- Python `str.split(c)` for a one-character separator. -/
def pySplit (c : Char) (s : String) : List String :=
  (splitSep c s.data).map (fun l => String.mk l)

/-- Python slicing `s[n:]` (by code point, as Python indexes strings). -/
def strDrop (s : String) (n : Nat) : String := String.mk (s.data.drop n)

/-- Elements at even positions (`l[::2]`). -/
def evens {α : Type} : List α → List α
  | [] => []
  | [a] => [a]
  | a :: _ :: t => a :: evens t

/-- Elements at odd positions (`l[1::2]`). -/
def odds {α : Type} : List α → List α
  | [] => []
  | _ :: t => evens t

/-- Python `dict` assignment `d[k] = v`: overwrite in place when the key is
present, otherwise append (insertion order preserved). -/
def dictInsert {κ ν : Type} [DecidableEq κ]
    (d : List (κ × ν)) (k : κ) (v : ν) : List (κ × ν) :=
  if d.any (fun p => decide (p.1 = k)) then
    d.map (fun p => if p.1 = k then (p.1, v) else p)
  else
    d ++ [(k, v)]

/-- Lookup in an insertion-ordered dict. -/
def dlookup {κ ν : Type} [DecidableEq κ]
    (d : List (κ × ν)) (k : κ) : Option ν :=
  (d.find? (fun p => decide (p.1 = k))).map (fun p => p.2)

/-- Python `dict(zip keys vals)`. -/
def dictOf {κ ν : Type} [DecidableEq κ] (ps : List (κ × ν)) : List (κ × ν) :=
  ps.foldl (fun d p => dictInsert d p.1 p.2) []

/-- `SDG2000X.toDict`: zip keys with values, failing
(`SDG2000XParameterException`) when the counts differ. -/
def toDict {κ ν : Type} [DecidableEq κ]
    (keys : List κ) (vals : List ν) : Option (List (κ × ν)) :=
  if keys.length = vals.length then some (dictOf (keys.zip vals)) else none

/-- Value of a nonempty all-digit byte string, else `none`. -/
def digitsVal (ds : List Nat) : Option Nat :=
  match ds with
  | [] => none
  | _ =>
    if ds.all (fun d => decide (48 ≤ d ∧ d ≤ 57)) then
      some (ds.foldl (fun a d => 10 * a + (d - 48)) 0)
    else none

/-- Python `int(s)` on an ASCII token: surrounding whitespace is ignored,
an optional sign precedes the digits. -/
def parseIntBytes (s : List Nat) : Option Int :=
  match bytesStrip s with
  | 45 :: ds => (digitsVal ds).map (fun n => -(n : Int))
  | 43 :: ds => (digitsVal ds).map (fun n => (n : Int))
  | ds => (digitsVal ds).map (fun n => (n : Int))

/-! ## struct pack / unpack of little-endian int16 -/

/-- The two little-endian bytes of one `<h` value. -/
def int16ToBytes (s : Int) : List Nat :=
  [(s % 65536).toNat % 256, (s % 65536).toNat / 256]

/-- One little-endian signed 16-bit value from its two bytes. -/
def bytesToInt16 (lo hi : Nat) : Int :=
  if lo + 256 * hi < 32768 then ((lo + 256 * hi : Nat) : Int)
  else ((lo + 256 * hi : Nat) : Int) - 65536

/-- Python `struct.pack('<Nh', *data)` (line 164): `none` models the
`struct.error` raised when a sample is outside the signed 16-bit range. -/
def structPack : List Int → Option (List Nat)
  | [] => some []
  | s :: t =>
    if -32768 ≤ s ∧ s ≤ 32767 then
      (structPack t).map (fun bs => int16ToBytes s ++ bs)
    else none

/-- Python `struct.unpack('<Nh', binary)` (line 153): `none` models the
`struct.error` raised when the buffer length is not exactly `2 * n`. -/
def structUnpack : Nat → List Nat → Option (List Int)
  | 0, [] => some []
  | 0, _ :: _ => none
  | _ + 1, [] => none
  | _ + 1, [_] => none
  | n + 1, lo :: hi :: t => (structUnpack n t).map (fun s => bytesToInt16 lo hi :: s)

/-! ## Binary decode stage of `getWaveform` (lines 149–153) -/

/-- Sizes of the `_recv` calls issued by lines 150–151: one call for the
exact shortfall when the captured buffer is short of the declared length,
none otherwise. -/
def topupRecvSizes (len : Int) (blen : Nat) : List Int :=
  if (blen : Int) < len then [len - blen] else []

/-- The binary buffer after the top-up read: `_recv n` yields up to `n`
bytes from the `pending` stream. -/
def finalBinary (len : Int) (binary pending : List Nat) : List Nat :=
  match topupRecvSizes len binary.length with
  | [] => binary
  | n :: _ => binary ++ pending.take n.toNat

/-- Lines 149–153 of `getWaveform`: top up the captured buffer, then unpack
`len(binary) // 2` little-endian int16 samples. -/
def decodeStage (len : Int) (binary pending : List Nat) : Option (List Int) :=
  structUnpack ((finalBinary len binary pending).length / 2)
    (finalBinary len binary pending)

/-! ## Header split and parse of `getWaveform` (lines 138–147) -/

/-- The marker token `WAVEDATA` as bytes. -/
def markerB : List Nat := strBytes "WAVEDATA"

/-- Line 138: `end = resp.find(b'WAVEDATA') + 9` — the first occurrence of
the marker, plus the 8 marker bytes and its one-character separator
(`find` yields `-1` when the marker is absent, hence `end = 8`). -/
def fetchSplitEnd (resp : List Nat) : Nat := (pyFind resp markerB + 9).toNat

/-- Line 139: everything right of the split is taken as binary payload. -/
def fetchBinary0 (resp : List Nat) : List Nat := resp.drop (fetchSplitEnd resp)

/-- Line 140: the left portion with the fixed 5-byte leading frame
(`WVDT␣`) skipped. -/
def fetchHeaderBytes (resp : List Nat) : List Nat :=
  (resp.take (fetchSplitEnd resp)).drop 5

/-- Result record of `getWaveform`: the parsed header dict (string-valued
entries as parsed), the integer `LENGTH` and `TYPE`, and the samples. -/
structure FetchOut where
  header : List (List Nat × List Nat)
  length : Int
  type : Int
  samples : List Int
deriving DecidableEq

/-- `SDG2000X.getWaveform` from the raw reply onward (lines 134–154):
strip the reply (via `_sendRecv`), split at the first `WAVEDATA` marker,
decode the left part as alternating key/value tokens, parse `LENGTH`
after dropping its trailing unit byte, parse `TYPE`, top up and unpack
the binary tail.  `none` models any Python exception on the way
(decode error, arity mismatch, missing key, `int()` failure,
`struct.error`). -/
def getWaveformModel (respRaw pending : List Nat) : Option FetchOut :=
  let resp := sendRecvBytes respRaw
  let binary := fetchBinary0 resp
  let hb := fetchHeaderBytes resp
  if hb.all (fun b => decide (b < 128)) then
    let toks := splitSep 44 hb
    let keys := (evens toks).map bytesStrip
    let vals := (odds toks).map bytesStrip
    match toDict keys vals with
    | none => none
    | some d =>
      match dlookup d (strBytes "LENGTH"), dlookup d (strBytes "TYPE") with
      | some lv, some tv =>
        match parseIntBytes lv.dropLast, parseIntBytes tv with
        | some len, some ty =>
          (decodeStage len binary pending).map (fun samples => ⟨d, len, ty, samples⟩)
        | _, _ => none
      | _, _ => none
  else none

/-! ## Waveform-name resolution -/

/-- Outcome of resolving a waveform name in a facade operation. -/
inductive ResolveOutcome where
  /-- An identifier string was produced and used in the command. -/
  | ident (s : String)
  /-- `SDG2000XParameterException` "not found" was raised. -/
  | notFound
  /-- Python `UnboundLocalError`: the local holding the identifier was
  never assigned because no branch matched. -/
  | crash
deriving DecidableEq

/-- Name resolution in `getWaveform` (lines 126–130): builtin dict first,
then the user list; there is NO `else` branch, so an unknown name leaves
`_name` unassigned and line 134 raises `UnboundLocalError`. -/
def resolveFetchName (builtins : List (String × String)) (user : List String)
    (name : String) : ResolveOutcome :=
  match dlookup builtins name with
  | some v => .ident v
  | none => if name ∈ user then .ident ("USER," ++ name) else .crash

/-- Name resolution in `setArbWaveform` (lines 173–178): builtin dict
first (`INDEX,` with the identifier's first character dropped), then the
user list (`NAME,` form), else `SDG2000XParameterException`. -/
def setArbResolve (builtins : List (String × String)) (user : List String)
    (name : String) : ResolveOutcome :=
  match dlookup builtins name with
  | some v => .ident ("INDEX," ++ strDrop v 1)
  | none => if name ∈ user then .ident ("NAME," ++ name) else .notFound

/-! ## Catalogue construction and mutation -/

/-- The loop of `getBuiltinWaveforms` (lines 106–111): `pairwise` plus a
suppressed `next` consumes the token list two at a time, recording
`name.strip() → idx.strip()`; a trailing unpaired token is discarded. -/
def builtinPairsLoop (d : List (String × String)) :
    List String → List (String × String)
  | idx :: name :: rest =>
    builtinPairsLoop (dictInsert d (pyStrip name) (pyStrip idx)) rest
  | _ => d

/-- `SDG2000X.getBuiltinWaveforms` from the decoded, stripped reply:
drop the fixed 4-character prefix, split on commas, run the pair loop. -/
def getBuiltinWaveformsModel (resp : String) : List (String × String) :=
  builtinPairsLoop [] (pySplit ',' (strDrop (pyStrip resp) 4))

/-- `SDG2000X.getUserWaveforms` (lines 113–115): drop the fixed
9-character prefix of the stripped reply and split on commas. -/
def getUserWaveformsModel (resp : String) : List String :=
  pySplit ',' (strDrop (pyStrip resp) 9)

/-- The catalogue state held by the session: the builtin `name → Mxx`
dict and the ordered user-name list. -/
structure Catalogue where
  builtins : List (String × String)
  user : List String
deriving DecidableEq

/-- Catalogue population at session start (lines 40–41). -/
def populateModel (stlResp userResp : String) : Catalogue :=
  ⟨getBuiltinWaveformsModel stlResp, getUserWaveformsModel userResp⟩

/-- `SDG2000X.saveWaveform` (lines 156–170) as a catalogue transition:
pack the samples (a `struct.error` aborts before any mutation), send, then
append the name to the user list; the builtin dict is never touched and no
listing command is re-issued. -/
def saveWaveformModel (st : Catalogue) (name : String) (data : List Int) :
    Option Catalogue :=
  match structPack data with
  | some _ => some ⟨st.builtins, st.user ++ [name]⟩
  | none => none

/-- `SDG2000X.getWaveformList` (lines 117–118): builtin names in dict
insertion order, then user names. -/
def getWaveformListModel (st : Catalogue) : List String :=
  st.builtins.map (fun p => p.1) ++ st.user

/-! ## The spec's reading of the marker split, and concrete replies -/

/-- Scan for the LAST position `≥ i` at which `pat` occurs. -/
def lastSubIdxFrom (pat : List Nat) : Nat → List Nat → Option Nat
  | i, [] => if pat.isPrefixOf ([] : List Nat) then some i else none
  | i, b :: t =>
    match lastSubIdxFrom pat (i + 1) t with
    | some p => some p
    | none => if pat.isPrefixOf (b :: t) then some i else none

/-- Position of the last occurrence of `pat` in `hay`. -/
def lastSubIdx (hay pat : List Nat) : Option Nat := lastSubIdxFrom pat 0 hay

/-- The binary payload as the SPEC's words describe the split ("locate the
last occurrence of that marker … split at the position immediately after
it (accounting for the one-character separator)"), stated for comparison
with the code's `fetchBinary0`, which uses `find` (the first occurrence). -/
def specSplitBinaryLastOcc (resp : List Nat) : List Nat :=
  match lastSubIdx resp markerB with
  | some p => resp.drop (p + 9)
  | none => []

/-- A raw `WVDT?` reply with the standard preamble declaring `LENGTH`
`4B`, over a given binary payload. -/
def respLen4 (payload : List Nat) : List Nat :=
  strBytes "WVDT POS, 0, WVNM, w, LENGTH, 4B, TYPE, 0, WAVEDATA," ++ payload

/-- The header dict `getWaveform` builds from such a reply (the `WAVEDATA`
marker itself is picked up as a label with an empty value). -/
def fetchDictOf (lenTok : String) : List (List Nat × List Nat) :=
  [(strBytes "POS", strBytes "0"), (strBytes "WVNM", strBytes "w"),
   (strBytes "LENGTH", strBytes lenTok), (strBytes "TYPE", strBytes "0"),
   (strBytes "WAVEDATA", [])]

/-- Reply whose binary payload itself begins with the bytes `WAVEDATA`:
the marker therefore occurs twice in the buffer. -/
def respMarkerTwice : List Nat :=
  strBytes "WVDT POS, 0, WVNM, w, LENGTH, 10B, TYPE, 0, WAVEDATA,"
    ++ strBytes "WAVEDATAab"

/-- Reply declaring the odd length `5B` over a six-byte payload. -/
def respOddLen : List Nat :=
  strBytes "WVDT POS, 0, WVNM, w, LENGTH, 5B, TYPE, 0, WAVEDATA,"
    ++ [1, 0, 2, 0, 3, 0]

/-- Reply declaring length `2B` but carrying four payload bytes. -/
def respOverCapture : List Nat :=
  strBytes "WVDT POS, 0, WVNM, w, LENGTH, 2B, TYPE, 0, WAVEDATA,"
    ++ [1, 0, 2, 0]

/-- Reply whose four-byte payload ends in the ASCII-whitespace byte `0x0A`. -/
def respWSPayload : List Nat := respLen4 [1, 0, 0, 10]

/-! ## Helper lemmas -/

lemma dropWhile_eq_self_of_head {α : Type} {p : α → Bool} {l : List α}
    (h : ∀ b, l.head? = some b → p b = false) : l.dropWhile p = l := by
  cases l with
  | nil => rfl
  | cons a t => simp [List.dropWhile_cons, h a rfl]

lemma dropWhile_append_all {α : Type} {p : α → Bool} {l : List α}
    (r : List α) (h : ∀ b ∈ l, p b = true) :
    (l ++ r).dropWhile p = r.dropWhile p := by
  induction l with
  | nil => rfl
  | cons a t ih =>
    simp only [List.cons_append, List.dropWhile_cons, h a (by simp)]
    exact ih (fun b hb => h b (by simp [hb]))

lemma dropWhile_all_ws {α : Type} {p : α → Bool} {l : List α}
    (h : ∀ b ∈ l, p b = true) : l.dropWhile p = [] := by
  have := dropWhile_append_all (p := p) (l := l) [] h
  simpa using this

/-- `bytes.strip()` leaves a buffer untouched when neither end byte is
ASCII whitespace. -/
lemma bytesStrip_noop {l : List Nat}
    (h1 : ∀ b, l.head? = some b → isWSByte b = false)
    (h2 : ∀ b, l.getLast? = some b → isWSByte b = false) :
    bytesStrip l = l := by
  unfold bytesStrip stripLeftB
  rw [dropWhile_eq_self_of_head h1]
  rw [dropWhile_eq_self_of_head (by simpa [List.head?_reverse] using h2)]
  exact l.reverse_reverse

lemma structUnpack_length : ∀ (n : Nat) (b : List Nat) (s : List Int),
    structUnpack n b = some s → s.length = n
  | 0, [], s, h => by simp [structUnpack] at h; simp [← h]
  | 0, _ :: _, s, h => by simp [structUnpack] at h
  | _ + 1, [], s, h => by simp [structUnpack] at h
  | _ + 1, [_], s, h => by simp [structUnpack] at h
  | n + 1, lo :: hi :: t, s, h => by
    simp only [structUnpack, Option.map_eq_some'] at h
    obtain ⟨s', hs', rfl⟩ := h
    simp [structUnpack_length n t s' hs']

lemma structUnpack_isSome_iff : ∀ (n : Nat) (b : List Nat),
    (structUnpack n b).isSome = true ↔ b.length = 2 * n
  | 0, [] => by simp [structUnpack]
  | 0, _ :: _ => by simp [structUnpack]
  | _ + 1, [] => by simp [structUnpack]
  | _ + 1, [_] => by simp [structUnpack]; omega
  | n + 1, lo :: hi :: t => by
    simp only [structUnpack, Option.isSome_map', List.length_cons]
    rw [structUnpack_isSome_iff n t]
    omega

lemma structPack_length : ∀ (l : List Int) (b : List Nat),
    structPack l = some b → b.length = 2 * l.length
  | [], b, h => by simp [structPack] at h; simp [← h]
  | s :: t, b, h => by
    simp only [structPack] at h
    split at h
    · simp only [Option.map_eq_some'] at h
      obtain ⟨b', hb', rfl⟩ := h
      simp [int16ToBytes, structPack_length t b' hb']
      omega
    · exact absurd h (by simp)

/-- Decoding the two little-endian bytes of an in-range int16 restores it. -/
lemma bytesToInt16_encode (s : Int) (h1 : -32768 ≤ s) (h2 : s ≤ 32767) :
    bytesToInt16 ((s % 65536).toNat % 256) ((s % 65536).toNat / 256) = s := by
  have h0 : (0 : Int) ≤ s % 65536 := Int.emod_nonneg s (by norm_num)
  have hlt : s % 65536 < 65536 := Int.emod_lt_of_pos s (by norm_num)
  have hu : (((s % 65536).toNat : Int)) = s % 65536 := Int.toNat_of_nonneg h0
  have hsum : (s % 65536).toNat % 256 + 256 * ((s % 65536).toNat / 256)
      = (s % 65536).toNat := Nat.mod_add_div _ _
  have hmod : s % 65536 = s ∨ s % 65536 = s + 65536 := by omega
  unfold bytesToInt16
  split <;> push_cast <;> omega

lemma dictInsert_keys_nodup {κ ν : Type} [DecidableEq κ]
    {d : List (κ × ν)} (k : κ) (v : ν)
    (h : (d.map (fun p => p.1)).Nodup) :
    ((dictInsert d k v).map (fun p => p.1)).Nodup := by
  unfold dictInsert
  split
  · have : ((d.map (fun p => if p.1 = k then (p.1, v) else p)).map
        (fun p => p.1)) = d.map (fun p => p.1) := by
      rw [List.map_map]
      refine List.map_congr_left (fun p _ => ?_)
      by_cases hp : p.1 = k <;> simp [hp]
    rw [this]; exact h
  · rename_i hany
    rw [List.map_append, List.nodup_append]
    refine ⟨h, by simp, ?_⟩
    intro x hx
    simp only [List.mem_map] at hx
    obtain ⟨p, hp, rfl⟩ := hx
    simp only [List.map_cons, List.map_nil, List.mem_singleton]
    intro hk
    exact hany (by simp only [List.any_eq_true]; exact ⟨p, hp, by simp [hk]⟩)

lemma builtinPairsLoop_keys_nodup : ∀ (toks : List String)
    (d : List (String × String)), (d.map (fun p => p.1)).Nodup →
    ((builtinPairsLoop d toks).map (fun p => p.1)).Nodup
  | [], _, h => h
  | [_], _, h => h
  | _ :: _ :: rest, _, h =>
    builtinPairsLoop_keys_nodup rest _ (dictInsert_keys_nodup _ _ h)

/-! ## Claim theorems -/

/-- C3: name resolution checks the builtin mapping first, then the user
list (producing `USER,<name>` in the fetch path); `setArbWaveform` fails
with the parameter error on an unknown name, but `getWaveform` instead
reaches an unassigned local (`UnboundLocalError`), never producing the
NotFound parameter error the spec demands — the code slip exhibited here. -/
theorem resolveThreeWayOutcomes :
    resolveFetchName [("sine", "M0")] ["mywave"] "sine" = .ident "M0"
    ∧ resolveFetchName [("sine", "M0")] ["mywave"] "mywave" = .ident "USER,mywave"
    ∧ setArbResolve [("sine", "M0")] ["mywave"] "ghost" = .notFound
    ∧ resolveFetchName [("sine", "M0")] ["mywave"] "ghost" = .crash
    ∧ resolveFetchName [("sine", "M0")] ["mywave"] "ghost" ≠ .notFound := by
  refine ⟨by decide, by decide, by decide, by decide, by decide⟩

/-- C4: the builtin-catalogue parse consumes comma-separated tokens two at
a time, recording trimmed name → trimmed index, silently discards an odd
trailing token, and on the two cited inputs produces exactly the claimed
dictionaries (also through the 4-character prefix strip). -/
theorem builtinCataloguePairs :
    (∀ (idx name : String) (rest : List String) (d : List (String × String)),
      builtinPairsLoop d (idx :: name :: rest)
        = builtinPairsLoop (dictInsert d (pyStrip name) (pyStrip idx)) rest)
    ∧ (∀ (tok : String) (d : List (String × String)), builtinPairsLoop d [tok] = d)
    ∧ (∀ (d : List (String × String)), builtinPairsLoop d [] = d)
    ∧ builtinPairsLoop [] (pySplit ',' "M0, sine, M1, square")
        = [("sine", "M0"), ("square", "M1")]
    ∧ builtinPairsLoop [] (pySplit ',' "M0, sine, M1") = [("sine", "M0")]
    ∧ getBuiltinWaveformsModel "STL M0, sine, M1, square"
        = [("sine", "M0"), ("square", "M1")] := by
  refine ⟨fun _ _ _ _ => rfl, fun _ _ => rfl, fun _ => rfl,
    by decide, by decide, by decide⟩

/-- C5: with declared length `len` and an already-captured buffer, the
decode stage issues no receive call when the buffer is long enough, and
exactly one receive call for exactly the shortfall otherwise. -/
theorem decodeTopupReads (len : Int) (captured : List Nat) :
    (len ≤ (captured.length : Int) → topupRecvSizes len captured.length = [])
    ∧ ((captured.length : Int) < len →
        topupRecvSizes len captured.length = [len - (captured.length : Int)]) := by
  unfold topupRecvSizes
  constructor
  · intro h
    rw [if_neg (by omega)]
  · intro h
    rw [if_pos h]

/-- C5 witness: `len = 10` over a 4-byte buffer requests exactly 6 bytes;
`len = 3` over the same buffer requests nothing. -/
theorem decodeTopupReads_w :
    topupRecvSizes 10 ([1, 2, 3, 4] : List Nat).length
      = [(10 : Int) - (([1, 2, 3, 4] : List Nat).length : Int)]
    ∧ topupRecvSizes 3 ([1, 2, 3, 4] : List Nat).length = [] :=
  ⟨(decodeTopupReads 10 [1, 2, 3, 4]).2 (by decide),
   (decodeTopupReads 3 [1, 2, 3, 4]).1 (by decide)⟩

/-- C7: packing any sequence of in-range signed 16-bit samples to
little-endian bytes (as `saveWaveform` does) and decoding them back with
count `len // 2` (as `getWaveform` does) restores the sequence exactly. -/
theorem packUnpackRoundTrip (l : List Int)
    (h : ∀ s ∈ l, -32768 ≤ s ∧ s ≤ 32767) :
    (structPack l).bind (fun b => structUnpack (b.length / 2) b) = some l := by
  induction l with
  | nil => simp [structPack, structUnpack]
  | cons s t ih =>
    have hs := h s (by simp)
    have ih' := ih (fun x hx => h x (by simp [hx]))
    cases hpt : structPack t with
    | none => rw [hpt] at ih'; simp at ih'
    | some bt =>
      rw [hpt] at ih'
      simp only [Option.some_bind] at ih'
      have hbl := structPack_length t bt hpt
      have hcnt : bt.length / 2 = t.length := by omega
      rw [hcnt] at ih'
      simp only [structPack, if_pos hs, hpt, Option.map_some', Option.some_bind]
      have hlen : (int16ToBytes s ++ bt).length / 2 = t.length + 1 := by
        simp [int16ToBytes]
        omega
      rw [hlen]
      simp only [int16ToBytes, List.cons_append, List.nil_append, structUnpack,
        ih', Option.map_some']
      rw [bytesToInt16_encode s hs.1 hs.2]
      simp [ih']

/-- C7 witness: the round trip at the concrete sample list `[0, 100, -100]`. -/
theorem packUnpackRoundTrip_w :
    (structPack [0, 100, -100]).bind (fun b => structUnpack (b.length / 2) b)
      = some [0, 100, -100] :=
  packUnpackRoundTrip [0, 100, -100] (by decide)

/-- C2 counterexample: a fetch reply declaring the odd length `5B` over a
six-byte captured payload does NOT fail — `getWaveform` performs no
odd-length check, reaches the decode, and returns three samples. -/
theorem oddLenFetchSucceeds :
    getWaveformModel respOddLen [] = some ⟨fetchDictOf "5B", 5, 0, [1, 2, 3]⟩ := by
  decide

/-- C2 amended: the decode stage treats an odd declared length like any
other — it attempts the unpack unconditionally, succeeding exactly when
the accumulated buffer (after the top-up) has even length. -/
theorem decodeNoOddCheck (len : Int) (binary pending : List Nat) :
    (decodeStage len binary pending).isSome = true
      ↔ (finalBinary len binary pending).length % 2 = 0 := by
  unfold decodeStage
  rw [structUnpack_isSome_iff]
  omega

/-- C6 counterexample: a fetch reply declaring `LENGTH` 2 whose single
read already captured four payload bytes succeeds with TWO samples —
`len(binary) // 2`, not the declared length over two. -/
theorem overCaptureFetchLen :
    getWaveformModel respOverCapture [] = some ⟨fetchDictOf "2B", 2, 0, [1, 2]⟩
    ∧ ([1, 2] : List Int).length ≠ 2 / 2 := by
  refine ⟨by decide, by decide⟩

/-- C6 amended: when the captured buffer does not exceed the declared
length and the top-up read can supply the full shortfall, a successful
decode yields exactly `len / 2` samples. -/
theorem fetchSamplesLenHalf (len : Nat) (binary pending : List Nat)
    (samples : List Int) (h1 : binary.length ≤ len)
    (h2 : len - binary.length ≤ pending.length)
    (h3 : decodeStage (len : Int) binary pending = some samples) :
    samples.length = len / 2 := by
  have hfb : (finalBinary (len : Int) binary pending).length = len := by
    unfold finalBinary topupRecvSizes
    by_cases hc : ((binary.length : Int)) < (len : Int)
    · rw [if_pos hc]
      dsimp only
      rw [List.length_append, List.length_take]
      omega
    · rw [if_neg hc]
      dsimp only
      omega
  unfold decodeStage at h3
  rw [hfb] at h3
  exact structUnpack_length _ _ _ h3

/-- C6 amended witness: declared length 4 over a two-byte capture and a
sufficient pending stream yields `4 / 2` samples. -/
theorem fetchSamplesLenHalf_w : ([1, 2] : List Int).length = 4 / 2 :=
  fetchSamplesLenHalf 4 [1, 0] [2, 0, 9, 9] [1, 2] (by decide) (by decide)
    (by decide)

/-- C8: a successful store's only catalogue effect is appending the name
once at the end of the user list (builtins untouched, no re-query); from
builtins `{sine: M0}` and users `[]`, storing `ramp` makes the waveform
list `[sine, ramp]` and `ramp` resolve to `USER,ramp`. -/
theorem saveAppendsOnly :
    (∀ (st : Catalogue) (name : String) (data : List Int) (b : List Nat),
      structPack data = some b →
      saveWaveformModel st name data = some ⟨st.builtins, st.user ++ [name]⟩)
    ∧ saveWaveformModel ⟨[("sine", "M0")], []⟩ "ramp" [0, 100, -100]
        = some ⟨[("sine", "M0")], ["ramp"]⟩
    ∧ getWaveformListModel ⟨[("sine", "M0")], ["ramp"]⟩ = ["sine", "ramp"]
    ∧ resolveFetchName [("sine", "M0")] ["ramp"] "ramp" = .ident "USER,ramp" := by
  refine ⟨?_, by decide, by decide, by decide⟩
  intro st name data b h
  unfold saveWaveformModel
  rw [h]

/-- C8 witness: the frame property applied at a concrete state. -/
theorem saveAppendsOnly_w :
    saveWaveformModel ⟨[("a", "M1")], ["u"]⟩ "w" [5]
      = some ⟨[("a", "M1")], ["u", "w"]⟩ :=
  saveAppendsOnly.1 ⟨[("a", "M1")], ["u"]⟩ "w" [5] [5, 0] (by decide)

/-- C9 counterexample: two successful stores of the same name append it
twice — the user-name partition of the catalogue is NOT duplicate-free
after arbitrary successful stores. -/
theorem userDupAfterDoubleStore :
    (saveWaveformModel (populateModel "STL M0, sine" "STL WVNM,a") "ramp" [0]).bind
        (fun st => saveWaveformModel st "ramp" [0])
      = some ⟨[("sine", "M0")], ["a", "ramp", "ramp"]⟩
    ∧ ¬ (["a", "ramp", "ramp"] : List String).Nodup := by
  refine ⟨by decide, by decide⟩

/-- C9 amended: the builtin partition is always duplicate-free (dict
insertion), and a store preserves uniqueness of the user partition only
when the stored name is fresh; the builtins are never touched by a store. -/
theorem catalogueUniqueAmended :
    (∀ (toks : List String),
      ((builtinPairsLoop [] toks).map (fun p => p.1)).Nodup)
    ∧ (∀ (st : Catalogue) (name : String) (data : List Int) (st' : Catalogue),
      st.user.Nodup → name ∉ st.user →
      saveWaveformModel st name data = some st' →
      st'.builtins = st.builtins ∧ st'.user.Nodup) := by
  constructor
  · intro toks
    exact builtinPairsLoop_keys_nodup toks [] (by simp)
  · intro st name data st' hnd hfresh hsave
    unfold saveWaveformModel at hsave
    cases hp : structPack data with
    | none => rw [hp] at hsave; cases hsave
    | some b =>
      rw [hp] at hsave
      cases hsave
      refine ⟨rfl, ?_⟩
      rw [List.nodup_append]
      exact ⟨hnd, by simp, fun x hx hx' => by
        simp only [List.mem_singleton] at hx'
        exact hfresh (hx' ▸ hx)⟩

/-- C9 amended witness: a fresh store on a duplicate-free user list. -/
theorem catalogueUniqueAmended_w :
    (⟨[], ["a", "b"]⟩ : Catalogue).builtins = (⟨[], ["a"]⟩ : Catalogue).builtins
    ∧ (⟨[], ["a", "b"]⟩ : Catalogue).user.Nodup :=
  catalogueUniqueAmended.2 ⟨[], ["a"]⟩ "b" [] ⟨[], ["a", "b"]⟩ (by decide)
    (by decide) (by decide)

/-- C1 counterexample: when the marker bytes also occur inside the binary
payload, the code splits after the FIRST occurrence (`bytes.find`), not
the last: the two split points differ, and the decoded samples are read
from the region containing the second marker occurrence itself. -/
theorem markerSplitLastOccFails :
    firstSubIdx (sendRecvBytes respMarkerTwice) markerB = some 44
    ∧ lastSubIdx (sendRecvBytes respMarkerTwice) markerB = some 53
    ∧ fetchBinary0 (sendRecvBytes respMarkerTwice)
        ≠ specSplitBinaryLastOcc (sendRecvBytes respMarkerTwice)
    ∧ getWaveformModel respMarkerTwice []
        = some ⟨fetchDictOf "10B", 10, 0,
            [16727, 17750, 16708, 16724, 25185]⟩ := by
  refine ⟨by decide, by decide, by decide, by decide⟩

set_option maxHeartbeats 2000000 in
/-- C1 amended: for any 4-byte payload (whose final byte survives the
response strip), the fetch splits the reply at the position immediately
after the FIRST occurrence of `WAVEDATA` plus its one-character separator,
decodes the left portion after the fixed 5-byte leading frame as
label/value pairs, strips the trailing unit byte of `LENGTH` (`4B` → 4),
and decodes everything right of the split as little-endian int16
samples. -/
theorem markerSplitFirstOcc (b0 b1 b2 b3 : Nat) (pending : List Nat)
    (h3 : isWSByte b3 = false) :
    firstSubIdx (respLen4 [b0, b1, b2, b3]) markerB = some 43
    ∧ fetchSplitEnd (respLen4 [b0, b1, b2, b3]) = 43 + 9
    ∧ getWaveformModel (respLen4 [b0, b1, b2, b3]) pending
        = some ⟨fetchDictOf "4B", 4, 0,
            [bytesToInt16 b0 b1, bytesToInt16 b2 b3]⟩ := by
  have hh : (respLen4 [b0, b1, b2, b3]).head? = some 87 := rfl
  have hl : (respLen4 [b0, b1, b2, b3]).getLast? = some b3 := rfl
  have hstrip : bytesStrip (respLen4 [b0, b1, b2, b3])
      = respLen4 [b0, b1, b2, b3] := by
    refine bytesStrip_noop (fun b hb => ?_) (fun b hb => ?_)
    · rw [hh] at hb; cases hb; decide
    · rw [hl] at hb; cases hb; exact h3
  refine ⟨rfl, rfl, ?_⟩
  unfold getWaveformModel sendRecvBytes
  rw [hstrip]
  show (decodeStage 4 [b0, b1, b2, b3] pending).map
      (fun s => (⟨fetchDictOf "4B", 4, 0, s⟩ : FetchOut)) = _
  rw [show decodeStage 4 [b0, b1, b2, b3] pending
      = some [bytesToInt16 b0 b1, bytesToInt16 b2 b3] from by
    simp [decodeStage, finalBinary, topupRecvSizes, structUnpack]]
  rfl

/-- C1 amended witness: the split and parse at the payload `[1, 2, 3, 4]`. -/
theorem markerSplitFirstOcc_w :
    firstSubIdx (respLen4 [1, 2, 3, 4]) markerB = some 43
    ∧ fetchSplitEnd (respLen4 [1, 2, 3, 4]) = 43 + 9
    ∧ getWaveformModel (respLen4 [1, 2, 3, 4]) []
        = some ⟨fetchDictOf "4B", 4, 0,
            [bytesToInt16 1 2, bytesToInt16 3 4]⟩ :=
  markerSplitFirstOcc 1 2 3 4 [] (by decide)

/-- C10: `_sendRecv` returns the received buffer with leading and trailing
ASCII whitespace (`0x09`–`0x0D`, `0x20`) stripped, for the binary fetch
reply as well: a payload whose last raw byte is `0x0A` loses it to the
strip, so the decoder tops the buffer up from later stream bytes and
produces samples differing from the payload as sent. -/
theorem sendRecvStripsResponse :
    (∀ (pre core post : List Nat),
      (∀ b ∈ pre, isWSByte b = true) → (∀ b ∈ post, isWSByte b = true) →
      (∀ b, core.head? = some b → isWSByte b = false) →
      (∀ b, core.getLast? = some b → isWSByte b = false) →
      sendRecvBytes (pre ++ core ++ post) = core)
    ∧ (∀ b : Nat, isWSByte b = true ↔ (9 ≤ b ∧ b ≤ 13) ∨ b = 32)
    ∧ structUnpack 2 [1, 0, 0, 10] = some [1, 2560]
    ∧ getWaveformModel respWSPayload [255]
        = some ⟨fetchDictOf "4B", 4, 0, [1, -256]⟩
    ∧ ([1, -256] : List Int) ≠ [1, 2560] := by
  refine ⟨?_, ?_, by decide, by decide, by decide⟩
  · intro pre core post hpre hpost hh hl
    unfold sendRecvBytes bytesStrip stripLeftB
    rw [List.append_assoc, dropWhile_append_all _ hpre]
    cases core with
    | nil =>
      rw [List.nil_append, dropWhile_all_ws hpost]
      rfl
    | cons c ct =>
      rw [List.cons_append, List.dropWhile_cons]
      simp only [hh c rfl, Bool.false_eq_true, if_false]
      rw [show (c :: (ct ++ post)) = (c :: ct) ++ post from by simp,
        List.reverse_append,
        dropWhile_append_all _ (fun b hb => hpost b (List.mem_reverse.mp hb)),
        dropWhile_eq_self_of_head
          (fun b hb => hl b (by rwa [List.head?_reverse] at hb))]
      exact List.reverse_reverse _
  · intro b
    unfold isWSByte wsBytes
    simp [List.contains]
    omega

/-- C10 witness: a buffer carrying one leading space and one trailing
newline around a single non-whitespace byte is stripped to that byte. -/
theorem sendRecvStripsResponse_w :
    sendRecvBytes ([32] ++ [65] ++ [10]) = [65] :=
  sendRecvStripsResponse.1 [32] [65] [10] (by decide) (by decide) (by decide)
    (by decide)

end SDG2000X
